import Mathlib

/-!
# Verification of the s2-chips chip-extraction pipeline

A shallow embedding of `src/chip.py` (the single source file of the
repository) together with theorems settling the specification claims.

Conventions:
* Python floats are modelled as rationals (`Rat`); the arithmetic of the
  chip-window computation is exact in the source (divisions by 2 of powers
  of two), so no rounding model is needed for the claims at hand.
* External capabilities (the STAC catalog, GDAL raster I/O, the Ray task
  runtime) are modelled as parameters/oracles or as explicit filesystem
  state transitions; the code of the repository itself is transcribed.
* The filesystem is modelled as the list of file paths that exist, plus a
  counter that generates fresh temporary-file names.
-/

namespace S2Chips

/-! ## Constants (`class Constants`, `BANDS`, line 12 and 21-24) -/

/-- Source line 12: `BANDS = ['swir16', 'nir08', 'red']`. -/
def BANDS : List String := ["swir16", "nir08", "red"]

/-- Source line 22: `Constants.STAC_API_URL`. -/
def STAC_API_URL : String := "https://earth-search.aws.element84.com/v1"

/-- Source line 23: `Constants.COLLECTION`. -/
def COLLECTION : String := "sentinel-2-l2a"

/-- Source line 24: `Constants.CLOUD_COVER_LIMIT`. -/
def CLOUD_COVER_LIMIT : Rat := 5

/-! ## Time windows (`process_month`, lines 112-117) -/

/-- A Python `datetime.datetime` restricted to the fields the program sets
(year, month, day; the time-of-day arguments are the constant 0). -/
structure PyDate where
  year : Nat
  month : Nat
  day : Nat
deriving DecidableEq, Repr

/-- Chronological order on dates, lexicographic on (year, month, day). -/
def PyDate.before (a b : PyDate) : Prop :=
  a.year < b.year ∨
    (a.year = b.year ∧ (a.month < b.month ∨ (a.month = b.month ∧ a.day < b.day)))

instance (a b : PyDate) : Decidable (a.before b) := by
  unfold PyDate.before; infer_instance

/-- Source line 112: `start_date = datetime(year, month, 1, 0, 0, 0)`. -/
def start_date (year month : Nat) : PyDate := ⟨year, month, 1⟩

/-- Source lines 113-117: `end_date = datetime(year, month + 1, 1) if
month < 12 else datetime(year + 1, 1, 1)`. -/
def end_date (year month : Nat) : PyDate :=
  if month < 12 then ⟨year, month + 1, 1⟩ else ⟨year + 1, 1, 1⟩

/-! ## Output naming (`process_month` line 145, `create_vrt` line 106) -/

/-- Python `f"{month:02}"`: decimal rendering zero-padded to two digits. -/
def pad2 (n : Nat) : String :=
  if n < 10 then "0" ++ toString n else toString n

/-- Python `str.upper()`: uppercase every character of the string. -/
def pyUpper (s : String) : String := ⟨s.data.map Char.toUpper⟩

/-- Source line 145: `composite_name =
f'{id}_S2_L2A_{year}_{month:02}'.upper()`.
Note the collection segment is the hardcoded literal `S2_L2A`, not
`Constants.COLLECTION`. -/
def compositeName (id : String) (year month : Nat) : String :=
  pyUpper (id ++ "_S2_L2A_" ++ toString year ++ "_" ++ pad2 month)

/-- Source line 106: `output_png = f'{output_name}.jpg'`; the file actually
written for a month is the composite name with a `.jpg` extension. -/
def outputFileName (id : String) (year month : Nat) : String :=
  compositeName id year month ++ ".jpg"

/-! ## Chip-window arithmetic (`extract_chip`, lines 67-75) -/

/-- Source line 67: `x_res = buffer / (width / 2)`. -/
def x_res (buffer width : Rat) : Rat := buffer / (width / 2)

/-- Source line 68: `y_res = buffer / (height / 2)`. -/
def y_res (buffer height : Rat) : Rat := buffer / (height / 2)

/-- Lines 70-75 of `extract_chip`: the projection window
`(ulx, uly, lrx, lry)` around the transformed center `(x, y)`, with
`half_width = width * x_res / 2` and `half_height = height * y_res / 2`. -/
def proj_win (x y buffer width height : Rat) : Rat × Rat × Rat × Rat :=
  let xr := x_res buffer width
  let yr := y_res buffer height
  let half_width := width * xr / 2
  let half_height := height * yr / 2
  (x - half_width, y + half_height, x + half_width, y - half_height)

/-! ## The VRT mosaic (`create_vrt`, lines 93-103) -/

/-- The virtual-raster descriptor handed to `gdal.BuildVRT`: the ordered
source URLs and the `separate` flag of `gdal.BuildVRTOptions`. -/
structure VRT where
  separate : Bool
  sources : List String
deriving DecidableEq, Repr

/-- Lines 94-96: `separate = True`, set to `False` when `len(urls) == 1`. -/
def separateFor (urls : List String) : Bool := !(urls.length == 1)

/-- The descriptor `gdal.BuildVRT` is asked to build from `urls` with the
flag computed by `create_vrt` (lines 102-103). -/
def mosaicOf (urls : List String) : VRT := ⟨separateFor urls, urls⟩

/-- Modelled from the spec: band `i` (1-based, GDAL numbering) of the built
mosaic. With `separate` enabled each source becomes one band in the order
supplied; with it disabled the mosaic is a direct reference to the (single)
source. `gdal.BuildVRT` itself is an external capability (§1 of the spec);
only the `separate` flag and the URL order are the repository's code. -/
def VRT.band (v : VRT) (i : Nat) : Option String :=
  if v.separate then v.sources.get? (i - 1) else v.sources.head?

/-! ## Filesystem model

The observable effect of the pipeline is which files exist.  `FS.files`
lists the paths present; `FS.nextTemp` feeds `tempfile`'s fresh-name
generator. -/

structure FS where
  nextTemp : Nat
  files : List String
deriving DecidableEq, Repr

/-- The path handed out for the `n`-th temporary file of the process. -/
def tempName (n : Nat) : String := "/tmp/tmp" ++ toString n ++ ".vrt"

/-- Source lines 98-100: `tempfile.NamedTemporaryFile(delete=False,
suffix='.vrt')` followed by
`tmp_file.close()` (lines 98-100): the file is created on disk and, because
`delete=False`, closing the handle does not remove it. -/
def namedTemporaryFile (fs : FS) : FS × String :=
  let path := tempName fs.nextTemp
  (⟨fs.nextTemp + 1, path :: fs.files⟩, path)

/-- Source line 103: `gdal.BuildVRT(vrt_path, urls, options=options)` writes the
descriptor `v` into the already-created file at `vrt_path`; no other path
is created or removed. -/
def gdal_BuildVRT (fs : FS) (vrt_path : String) (v : VRT) : FS :=
  let _ := vrt_path
  let _ := v
  fs

/-- Source lines 79-88: `gdal.Translate(output_cog, ds, options=options)` writes
the JPEG chip and, because of `WORLDFILE=YES`, a world-file sidecar. -/
def gdal_Translate (fs : FS) (output_cog : String) : FS :=
  ⟨fs.nextTemp, output_cog :: (output_cog ++ ".wld") :: fs.files⟩

/-- Source lines 48-90: `extract_chip(vrt_path, lon, lat, output_cog, ...)`; the
window arithmetic is the pure `x_res`/`y_res`/`proj_win` above; the
filesystem effect is the single `gdal.Translate` call. -/
def extract_chip (fs : FS) (vrt_path : String) (lon lat : Rat)
    (output_cog : String) : FS :=
  let _ := vrt_path
  let _ := (lon, lat)
  gdal_Translate fs output_cog

/-- Source lines 93-108: `create_vrt(urls, output_name, lon, lat)` computes the
`separate` flag, creates the non-deleting temporary `.vrt` file, builds the
VRT descriptor there, and extracts the chip to `{output_name}.jpg`.  No
statement in the function (nor in any caller) removes the temporary. -/
def create_vrt (fs : FS) (urls : List String) (output_name : String)
    (lon lat : Rat) : FS :=
  let separate := separateFor urls
  let p := namedTemporaryFile fs
  let fs1 := p.1
  let vrt_path := p.2
  let fs2 := gdal_BuildVRT fs1 vrt_path ⟨separate, urls⟩
  let output_png := output_name ++ ".jpg"
  extract_chip fs2 vrt_path lon lat output_png

/-! ## Scene candidates and selection (`process_month`, lines 123-147) -/

/-- A STAC item as the program reads it: `properties['eo:cloud_cover']` and
the band-to-href mapping `assets[b]['href']` (modelled as an association
list; the program assumes its three bands are present). -/
structure Candidate where
  cc : Rat
  assets : List (String × String)
deriving DecidableEq, Repr

/-- The ascending-by-cloud-cover comparison used as the sort key
(line 133). -/
def leCC (a b : Candidate) : Bool := a.cc ≤ b.cc

/-- Source line 141: `item.assets[b]['href']`. -/
def hrefOf (c : Candidate) (b : String) : String :=
  (c.assets.lookup b).getD ""

/-- Lines 132-139: `items = sorted(search.items(), key=cloud_cover)` —
Python's `sorted` is a stable ascending sort, matching `List.mergeSort` —
followed by `if items: item = items[0]`.  The selected scene is therefore
the head of the stable sort, `none` when the query returned nothing. -/
def selectScene (items : List Candidate) : Option Candidate :=
  (items.mergeSort leCC).head?

/-- Specification-side characterization of the selection policy: the first
element of the list attaining the minimum cloud cover (ties keep the
earlier, i.e. catalog-return, order).  Proven below to coincide with
`selectScene`, the head of the stable sort. -/
def firstMin : List Candidate → Option Candidate
  | [] => none
  | a :: t =>
    match firstMin t with
    | none => some a
    | some b => if b.cc < a.cc then some b else some a

/-- Source lines 110-147: `process_month(id, month, year, geometry, lon, lat)`.
The catalog response for the month's window (already filtered server-side
by `eo:cloud_cover < CLOUD_COVER_LIMIT`, line 128) is passed in as
`items`; the function sorts it, and when non-empty builds the band URLs
(line 140-143, in `BANDS` order), the composite name, and the chip. -/
def process_month (fs : FS) (items : List Candidate) (id : String)
    (month year : Nat) (lon lat : Rat) : FS :=
  match selectScene items with
  | none => fs
  | some item =>
      let urls := BANDS.map (fun b => "/vsicurl/" ++ hrefOf item b)
      let composite_name := compositeName id year month
      create_vrt fs urls composite_name lon lat

/-! ## The worker task (`worker`, lines 16-19)

`process_month` is decorated with `@logger.catch`: any exception raised in
its body is logged and swallowed, the call returning `None`.  To reason
about failures of the external capabilities (network, GDAL) we abstract
one month's uncaught body as an oracle returning `Except`; the decorator
turns an error into "state unchanged, continue". -/

/-- One `process_month(...)` call as the `for` loop sees it: the
`@logger.catch` decorator (line 110) maps an exception inside the body to
a logged no-op. -/
def month_step (body : Nat → FS → Except String FS) (fs : FS) (month : Nat) : FS :=
  match body month fs with
  | Except.error _ => fs
  | Except.ok fs' => fs'

/-- Source lines 16-19: `worker(id, year, geometry, lon, lat)`: `for month in
range(1, 13): process_month(...)`, i.e. a sequential fold of the caught
month body over the months `[1, ..., 12]`. -/
def worker (body : Nat → FS → Except String FS) (fs : FS) : FS :=
  (List.range' 1 12).foldl (month_step body) fs

/-! ## The orchestrator (`execute`, lines 149-174) -/

/-- A row of the input GeoDataFrame: the `ID` attribute and the geometry
(either a point with its coordinates, or some other geometry type). -/
inductive Geometry where
  | point (lon lat : Rat)
  | other (typeName : String)
deriving DecidableEq, Repr

/-- Source line 163: the `geom.type != 'Point'` test, as a predicate. -/
def Geometry.isPoint : Geometry → Bool
  | .point _ _ => true
  | .other _ => false

structure Row where
  ID : String
  geometry : Geometry
deriving DecidableEq, Repr

/-- The rows that survive the `if geom.type != 'Point': continue` check
(lines 163-165). -/
def validRows (rows : List Row) : List Row :=
  rows.filter (fun r => r.geometry.isPoint)

/-- Lines 154-169 of `execute`: `gdf = gdf.iloc[:2]` keeps only the FIRST
TWO rows; then for each remaining row with a Point geometry and each year
of `year_range`, one `worker.remote(id, year, geom, lon, lat)` task is
appended.  A task is identified here by its `(id, year)` pair (the
geometry and coordinates are determined by the row). -/
def execute_tasks (rows : List Row) (year_range : List Nat) : List (String × Nat) :=
  (validRows (rows.take 2)).flatMap (fun r => year_range.map (fun y => (r.ID, y)))

/-- Source line 172: `ray.get(tasks)` resolves every dispatched task and
returns their results; `execute` blocks on it before returning. -/
def ray_get (run : String × Nat → FS) (tasks : List (String × Nat)) : List FS :=
  tasks.map run

/-- Source lines 149-174: `execute(year_range, geojson_file)`, with the file
already loaded into `rows` and the Ray runtime abstracted by `run`: the
value `execute` has when it returns is the resolution of every dispatched
task. -/
def execute (rows : List Row) (year_range : List Nat)
    (run : String × Nat → FS) : List FS :=
  ray_get run (execute_tasks rows year_range)

/-! # Theorems -/

/-! ## C3: the monthly time window -/

/-- C3: for every year and month in 1..12, the window built by
`process_month` starts at `datetime(year, month, 1)` and ends at
`datetime(year, month+1, 1)` for `month < 12` and at
`datetime(year+1, 1, 1)` for `month == 12`; the half-open interval
`[start, end)` is never empty because `start` is strictly before `end`. -/
theorem C3_time_window (year month : Nat) (h1 : 1 ≤ month) (h2 : month ≤ 12) :
    start_date year month = ⟨year, month, 1⟩ ∧
    (month < 12 → end_date year month = ⟨year, month + 1, 1⟩) ∧
    (month = 12 → end_date year month = ⟨year + 1, 1, 1⟩) ∧
    (start_date year month).before (end_date year month) := by
  refine ⟨rfl, fun h => if_pos h, fun h => by simp [end_date, h], ?_⟩
  unfold start_date end_date PyDate.before
  split <;> simp

/-- Witness for C3 at `(year, month) = (2020, 3)` and the December case
`(2020, 12)`. -/
theorem C3_time_window_witness :
    end_date 2020 3 = ⟨2020, 4, 1⟩ ∧ end_date 2020 12 = ⟨2021, 1, 1⟩ ∧
    (start_date 2020 12).before (end_date 2020 12) :=
  ⟨(C3_time_window 2020 3 (by decide) (by decide)).2.1 (by decide),
   (C3_time_window 2020 12 (by decide) (by decide)).2.2.1 rfl,
   (C3_time_window 2020 12 (by decide) (by decide)).2.2.2⟩

/-! ## C2: output naming -/

/-- C2 counterexample: the filename stem produced by `process_month` for
point id "P1", year 2020, month 3 is NOT
`P1_SENTINEL-2-L2A_2020_03` (the configured collection name is not part of
the filename), so no choice of extension yields
`P1_SENTINEL-2-L2A_2020_03.<ext>`. -/
theorem C2_naming_counterexample :
    compositeName "P1" 2020 3 ≠ "P1_SENTINEL-2-L2A_2020_03" ∧
    outputFileName "P1" 2020 3 ≠ "P1_SENTINEL-2-L2A_2020_03.jpg" := by
  constructor <;> decide

/-- C2 amended: the filename stem hardcodes the literal segment `S2_L2A`
(line 145) rather than interpolating `Constants.COLLECTION`; for id "P1",
year 2020, month 3 the produced file is `P1_S2_L2A_2020_03.jpg`
(uppercased, zero-padded month).  The name is a pure function of
`(id, year, month)`, so re-running with the same inputs reproduces it
identically. -/
theorem C2_naming_amended :
    compositeName "P1" 2020 3 = "P1_S2_L2A_2020_03" ∧
    outputFileName "P1" 2020 3 = "P1_S2_L2A_2020_03.jpg" ∧
    (∀ id year month, outputFileName id year month =
      pyUpper (id ++ "_S2_L2A_" ++ toString year ++ "_" ++ pad2 month) ++ ".jpg") := by
  refine ⟨by decide, by decide, fun id year month => rfl⟩

/-! ## C5: empty candidate set skips the month -/

/-- C5: when the filtered candidate set for a month is empty, no scene is
selected, no mosaic is built and no file is created: `process_month`
returns the filesystem unchanged (a skip, not an error). -/
theorem C5_empty_skip (fs : FS) (id : String) (month year : Nat) (lon lat : Rat) :
    selectScene [] = none ∧
    process_month fs [] id month year lon lat = fs ∧
    (process_month fs [] id month year lon lat).files = fs.files := by
  refine ⟨by simp [selectScene], by simp [process_month, selectScene], ?_⟩
  simp [process_month, selectScene]

/-! ## C6: ground resolution -/

/-- C6: the per-axis resolutions are `x_res = buffer / (width / 2)` and
`y_res = buffer / (height / 2)` (lines 67-68), and doubling `width` while
holding `buffer` fixed halves `x_res`. -/
theorem C6_resolution (buffer width height : Rat)
    (hb : 0 < buffer) (hw : 0 < width) (hh : 0 < height) :
    x_res buffer width = buffer / (width / 2) ∧
    y_res buffer height = buffer / (height / 2) ∧
    x_res buffer (2 * width) = x_res buffer width / 2 := by
  refine ⟨rfl, rfl, ?_⟩
  unfold x_res
  rw [div_div]
  congr 1
  ring

/-- Witness for C6 at the source defaults `buffer = 4000`,
`width = height = 256`. -/
theorem C6_resolution_witness :
    x_res 4000 (2 * 256) = x_res 4000 256 / 2 :=
  (C6_resolution 4000 256 256 (by norm_num) (by norm_num) (by norm_num)).2.2

/-! ## C7: window symmetry around the transformed center -/

/-- C7: the projection window of lines 70-75 is symmetric around the
transformed center: the upper-left/lower-right corners are the center
offset by `half_width = width * x_res / 2` and
`half_height = height * y_res / 2`, so the window midpoint is exactly
`(x, y)` (the arithmetic is exact over the rationals). -/
theorem C7_window_symmetry (x y buffer width height : Rat)
    (hb : 0 < buffer) (hw : 0 < width) (hh : 0 < height) :
    ((proj_win x y buffer width height).1 +
      (proj_win x y buffer width height).2.2.1) / 2 = x ∧
    ((proj_win x y buffer width height).2.1 +
      (proj_win x y buffer width height).2.2.2) / 2 = y ∧
    (proj_win x y buffer width height).1 = x - width * x_res buffer width / 2 ∧
    (proj_win x y buffer width height).2.1 = y + height * y_res buffer height / 2 ∧
    (proj_win x y buffer width height).2.2.1 = x + width * x_res buffer width / 2 ∧
    (proj_win x y buffer width height).2.2.2 = y - height * y_res buffer height / 2 := by
  refine ⟨?_, ?_, rfl, rfl, rfl, rfl⟩ <;> · simp only [proj_win]; ring

/-- Witness for C7 at center `(500000, 4000000)` (a typical UTM point) and
the source defaults. -/
theorem C7_window_symmetry_witness :
    ((proj_win 500000 4000000 4000 256 256).1 +
      (proj_win 500000 4000000 4000 256 256).2.2.1) / 2 = 500000 :=
  (C7_window_symmetry 500000 4000000 4000 256 256
    (by norm_num) (by norm_num) (by norm_num)).1

/-! ## C10: the temporary VRT descriptor -/

/-- C10 counterexample: after `create_vrt` completes one extraction (here
from a fresh filesystem, three band URLs and the March-2020 composite
name), the temporary `.vrt` descriptor file it created is still present —
`NamedTemporaryFile(delete=False)` (line 98) is never unlinked — refuting
the claim that the descriptor does not persist after the extraction. -/
theorem C10_temp_counterexample :
    tempName 0 ∈ (create_vrt ⟨0, []⟩
      ["/vsicurl/a", "/vsicurl/b", "/vsicurl/c"] "P1_S2_L2A_2020_03" 139 36).files := by
  decide

/-- C10 amended: the temporary mosaic descriptor is created fresh for each
extraction and used only by it, but it is created with `delete=False` and
no code path removes it: it persists on disk after the extraction
completes (until some cleanup external to the program). -/
theorem C10_temp_persists_amended (fs : FS) (urls : List String)
    (output_name : String) (lon lat : Rat) :
    tempName fs.nextTemp ∈ (create_vrt fs urls output_name lon lat).files := by
  simp [create_vrt, namedTemporaryFile, gdal_BuildVRT, extract_chip, gdal_Translate]

/-! ## C8: separate-bands mode of the mosaic builder -/

/-- C8 counterexample: for the empty URL sequence `create_vrt` leaves
`separate = True` (lines 94-96 only clear it when `len(urls) == 1`), so
"separate-bands enabled iff more than one URL" fails at `urls = []`. -/
theorem C8_separate_counterexample :
    ¬(((mosaicOf []).separate = true) ↔ 1 < ([] : List String).length) := by
  decide

/-- C8 amended: separate-bands stacking is enabled iff the number of URLs
is not exactly one (equivalently, iff more than one for every non-empty
sequence); the mosaic's source list is exactly the supplied URLs in order,
with exactly one URL the mosaic is a direct single-source reference
(separate disabled), and with more than one URL band `i+1` of the mosaic
is the `i`-th supplied URL. -/
theorem C8_separate_amended (urls : List String) :
    ((mosaicOf urls).separate = true ↔ urls.length ≠ 1) ∧
    (urls ≠ [] → ((mosaicOf urls).separate = true ↔ 1 < urls.length)) ∧
    (mosaicOf urls).sources = urls ∧
    (∀ u, urls = [u] →
      (mosaicOf urls).separate = false ∧ (mosaicOf urls).band 1 = some u) ∧
    (1 < urls.length → (mosaicOf urls).separate = true ∧
      ∀ i, i < urls.length → (mosaicOf urls).band (i + 1) = urls[i]?) := by
  refine ⟨?_, ?_, rfl, ?_, ?_⟩
  · simp [mosaicOf, separateFor]
  · intro hne
    cases urls with
    | nil => exact absurd rfl hne
    | cons a t =>
      simp [mosaicOf, separateFor]
      exact List.length_pos.symm
  · rintro u rfl
    exact ⟨rfl, rfl⟩
  · intro h
    have hsep : separateFor urls = true := by
      simp [separateFor]
      omega
    refine ⟨hsep, fun i hi => ?_⟩
    simp [VRT.band, mosaicOf, hsep]

/-- Witness for C8: three URLs give a separate-bands mosaic whose second
band is the second URL; one URL gives a direct non-separate reference. -/
theorem C8_separate_witness :
    (mosaicOf ["a", "b", "c"]).separate = true ∧
    (mosaicOf ["a", "b", "c"]).band 2 = some "b" ∧
    (mosaicOf ["a"]).separate = false ∧
    (mosaicOf ["a"]).band 1 = some "a" := by
  refine ⟨((C8_separate_amended ["a", "b", "c"]).2.2.2.2 (by decide)).1, ?_,
    ((C8_separate_amended ["a"]).2.2.2.1 "a" rfl).1,
    ((C8_separate_amended ["a"]).2.2.2.1 "a" rfl).2⟩
  have h := ((C8_separate_amended ["a", "b", "c"]).2.2.2.2 (by decide)).2 1 (by decide)
  simpa using h

/-! ## C9: failure isolation across the 12 months -/

/-- C9: within one `(point, year)` task the months run sequentially, each
behind `@logger.catch`.  If the body of some month `m` fails (any
transform, crop or write failure), that month leaves the state unchanged
and every month after `m` is still attempted: the whole run equals the
fold of the caught month step over the months before `m` followed by the
months after `m`.  Nothing aborts the task or any sibling month. -/
theorem C9_month_isolation (body : Nat → FS → Except String FS) (fs : FS)
    (pre post : List Nat) (m : Nat)
    (hsplit : List.range' 1 12 = pre ++ m :: post)
    (hfail : ∀ s, ∃ e, body m s = Except.error e) :
    worker body fs =
      List.foldl (month_step body) (List.foldl (month_step body) fs pre) post := by
  unfold worker
  rw [hsplit, List.foldl_append, List.foldl_cons]
  obtain ⟨e, he⟩ := hfail (List.foldl (month_step body) fs pre)
  rw [month_step, he]

/-- Witness for C9: a body failing exactly at month 5 still runs months
1-4 and 6-12. -/
theorem C9_month_isolation_witness :
    worker (fun m s => if m = 5 then Except.error "boom" else Except.ok s) ⟨0, []⟩ =
      List.foldl (month_step fun m s => if m = 5 then Except.error "boom" else Except.ok s)
        (List.foldl (month_step fun m s => if m = 5 then Except.error "boom" else Except.ok s)
          ⟨0, []⟩ [1, 2, 3, 4]) [6, 7, 8, 9, 10, 11, 12] :=
  C9_month_isolation _ ⟨0, []⟩ [1, 2, 3, 4] [6, 7, 8, 9, 10, 11, 12] 5
    (by decide) (fun s => ⟨"boom", rfl⟩)

/-! ## C1: fan-out of (point, year) tasks -/

/-- Counting a fixed pair among the tasks generated for one row: it occurs
`years.count y` times when the row's id matches, never otherwise. -/
theorem count_pair_map (rid id : String) (y : Nat) (years : List Nat) :
    (years.map (fun y' => (rid, y'))).count (id, y) =
      if rid = id then years.count y else 0 := by
  induction years with
  | nil => simp
  | cons a t ih =>
    simp only [List.map_cons, List.count_cons, ih]
    by_cases h : rid = id
    · subst h
      by_cases hy : a = y <;> simp [hy, Prod.ext_iff]
    · simp [h, Prod.ext_iff]

/-- Counting a fixed pair in the whole dispatched task list: the number of
rows carrying the id times the number of occurrences of the year. -/
theorem count_pair_flatMap (rs : List Row) (years : List Nat)
    (id : String) (y : Nat) :
    (rs.flatMap (fun r => years.map (fun y' => (r.ID, y')))).count (id, y) =
      ((rs.map Row.ID).count id) * (years.count y) := by
  induction rs with
  | nil => simp
  | cons r t ih =>
    simp only [List.flatMap_cons, List.count_append, ih, List.map_cons,
      List.count_cons, count_pair_map]
    by_cases h : r.ID = id
    · simp [h]
      ring
    · simp [h]

/-- C1 counterexample: a dataset of three valid Point rows with one year
dispatches only 2 tasks, not `#valid points × #years = 3`, because
`execute` truncates the dataset to its first two rows (`gdf.iloc[:2]`,
line 154) before dispatching. -/
theorem C1_fanout_counterexample :
    (execute_tasks
      [⟨"A", .point 0 0⟩, ⟨"B", .point 1 1⟩, ⟨"C", .point 2 2⟩] [2020]).length ≠
    (validRows [⟨"A", .point 0 0⟩, ⟨"B", .point 1 1⟩, ⟨"C", .point 2 2⟩]).length *
      [2020].length := by
  decide

/-- C1 amended: `execute` dispatches exactly one Temporal Driver task per
(point, year) pair drawn from the FIRST TWO rows of the dataset (the
`iloc[:2]` truncation) whose geometry is a Point: the task count is
`#valid points among the first two rows × #years`, each such pair occurs
exactly once (given unique ids and distinct years), and the value
`execute` returns is the resolution of every dispatched task
(`ray.get(tasks)` blocks until all have resolved). -/
theorem C1_fanout_amended (rows : List Row) (years : List Nat)
    (run : String × Nat → FS)
    (hID : ((validRows (rows.take 2)).map Row.ID).Nodup)
    (hY : years.Nodup) :
    (execute_tasks rows years).length =
      (validRows (rows.take 2)).length * years.length ∧
    (∀ r ∈ validRows (rows.take 2), ∀ y ∈ years,
      (execute_tasks rows years).count (r.ID, y) = 1) ∧
    execute rows years run = (execute_tasks rows years).map run := by
  refine ⟨?_, ?_, rfl⟩
  · unfold execute_tasks
    rw [List.length_flatMap]
    simp [Function.comp_def, List.map_const']
  · intro r hr y hy
    unfold execute_tasks
    rw [count_pair_flatMap,
      List.count_eq_one_of_mem hID (List.mem_map_of_mem Row.ID hr),
      List.count_eq_one_of_mem hY hy, mul_one]

/-- Witness for C1 at a two-row dataset with distinct ids and two years:
4 = 2 × 2 tasks, and the pair ("B", 2021) is dispatched exactly once. -/
theorem C1_fanout_witness :
    (execute_tasks [⟨"A", .point 0 0⟩, ⟨"B", .point 1 1⟩] [2020, 2021]).length = 2 * 2 ∧
    (execute_tasks [⟨"A", .point 0 0⟩, ⟨"B", .point 1 1⟩] [2020, 2021]).count ("B", 2021) = 1 := by
  have h := C1_fanout_amended [⟨"A", .point 0 0⟩, ⟨"B", .point 1 1⟩] [2020, 2021]
    (fun _ => ⟨0, []⟩) (by decide) (by decide)
  refine ⟨by simpa using h.1, ?_⟩
  have h2 := h.2.1 ⟨"B", .point 1 1⟩ (by decide) 2021 (by decide)
  simpa using h2

/-! ## C4: the scene selector -/

theorem leCC_trans : ∀ a b c : Candidate, leCC a b → leCC b c → leCC a c := by
  intro a b c hab hbc
  simp only [leCC, decide_eq_true_eq] at *
  exact le_trans hab hbc

theorem leCC_total : ∀ a b : Candidate, leCC a b || leCC b a := by
  intro a b
  simp only [leCC, Bool.or_eq_true, decide_eq_true_eq]
  exact le_total a.cc b.cc

/-- The function `firstMin` returns `none` only on the empty list. -/
theorem firstMin_eq_none {l : List Candidate} (h : firstMin l = none) : l = [] := by
  cases l with
  | nil => rfl
  | cons a t =>
    exfalso
    cases hft : firstMin t with
    | none => simp [firstMin, hft] at h
    | some b =>
      simp only [firstMin, hft] at h
      by_cases hba : b.cc < a.cc
      · rw [if_pos hba] at h
        exact Option.noConfusion h
      · rw [if_neg hba] at h
        exact Option.noConfusion h

/-- On a non-empty list `firstMin` returns a candidate. -/
theorem firstMin_isSome {l : List Candidate} (h : l ≠ []) :
    ∃ c, firstMin l = some c := by
  cases hfm : firstMin l with
  | none => exact absurd (firstMin_eq_none hfm) h
  | some c => exact ⟨c, rfl⟩

/-- The candidate `firstMin` picks is in the list. -/
theorem firstMin_mem {l : List Candidate} {c : Candidate}
    (h : firstMin l = some c) : c ∈ l := by
  induction l generalizing c with
  | nil => simp [firstMin] at h
  | cons a t ih =>
    cases hft : firstMin t with
    | none =>
      simp only [firstMin, hft, Option.some.injEq] at h
      subst h
      exact List.mem_cons_self a t
    | some b =>
      simp only [firstMin, hft] at h
      by_cases hba : b.cc < a.cc
      · rw [if_pos hba] at h
        injection h with h
        subst h
        exact List.mem_cons_of_mem a (ih hft)
      · rw [if_neg hba] at h
        injection h with h
        subst h
        exact List.mem_cons_self a t

/-- The candidate `firstMin` picks has minimal cloud cover. -/
theorem firstMin_le {l : List Candidate} {c : Candidate}
    (h : firstMin l = some c) : ∀ x ∈ l, c.cc ≤ x.cc := by
  induction l generalizing c with
  | nil => simp [firstMin] at h
  | cons a t ih =>
    cases hft : firstMin t with
    | none =>
      have ht : t = [] := firstMin_eq_none hft
      subst ht
      simp only [firstMin, Option.some.injEq] at h
      subst h
      simp
    | some b =>
      simp only [firstMin, hft] at h
      by_cases hba : b.cc < a.cc
      · rw [if_pos hba] at h
        injection h with h
        subst h
        intro x hx
        rcases List.mem_cons.mp hx with hxa | hxt
        · subst hxa
          exact le_of_lt hba
        · exact ih hft x hxt
      · rw [if_neg hba] at h
        injection h with h
        subst h
        intro x hx
        rcases List.mem_cons.mp hx with hxa | hxt
        · subst hxa
          exact le_refl _
        · exact le_trans (not_lt.mp hba) (ih hft x hxt)

/-- The candidate `firstMin` picks is the FIRST list element attaining the
minimum: everything strictly before it has strictly larger cloud cover. -/
theorem firstMin_first {l : List Candidate} {c : Candidate}
    (h : firstMin l = some c) :
    ∃ l₁ l₂, l = l₁ ++ c :: l₂ ∧ ∀ b ∈ l₁, c.cc < b.cc := by
  induction l generalizing c with
  | nil => simp [firstMin] at h
  | cons a t ih =>
    cases hft : firstMin t with
    | none =>
      simp only [firstMin, hft, Option.some.injEq] at h
      subst h
      exact ⟨[], t, rfl, by simp⟩
    | some b =>
      simp only [firstMin, hft] at h
      by_cases hba : b.cc < a.cc
      · rw [if_pos hba] at h
        injection h with h
        subst h
        obtain ⟨t₁, t₂, hteq, htlt⟩ := ih hft
        refine ⟨a :: t₁, t₂, by rw [hteq]; rfl, ?_⟩
        intro x hx
        rcases List.mem_cons.mp hx with hxa | hxt
        · subst hxa
          exact hba
        · exact htlt x hxt
      · rw [if_neg hba] at h
        injection h with h
        subst h
        exact ⟨[], t, rfl, by simp⟩

/-- The head of the stable merge sort by cloud cover is exactly the first
minimal element of the input (stability: ties keep input order). -/
theorem head?_mergeSort_leCC (l : List Candidate) :
    (l.mergeSort leCC).head? = firstMin l := by
  induction l with
  | nil => simp [firstMin]
  | cons a t ih =>
    obtain ⟨l₁, l₂, h₁, h₂, h₃⟩ := List.mergeSort_cons leCC_trans leCC_total a t
    cases l₁ with
    | nil =>
      simp only [List.nil_append] at h₁ h₂
      rw [h₁]
      rw [h₂] at ih
      cases l₂ with
      | nil =>
        have ht : t = [] := firstMin_eq_none (by simpa using ih.symm)
        subst ht
        simp [firstMin]
      | cons b l₂' =>
        have hfm : firstMin t = some b := by simpa using ih.symm
        have hs := List.sorted_mergeSort leCC_trans leCC_total (a :: t)
        rw [h₁] at hs
        have hab : leCC a b := (List.pairwise_cons.mp hs).1 b (List.mem_cons_self b l₂')
        have hnlt : ¬ b.cc < a.cc := by
          simp only [leCC, decide_eq_true_eq] at hab
          exact not_lt.mpr hab
        simp [firstMin, hfm, hnlt]
    | cons c l₁' =>
      rw [h₁]
      have hfm : firstMin t = some c := by
        rw [← ih, h₂]
        rfl
      have hac : ¬ leCC a c := by
        have := h₃ c (List.mem_cons_self c l₁')
        simpa using this
      have hlt : c.cc < a.cc := by
        simp only [leCC, decide_eq_true_eq] at hac
        exact lt_of_not_le hac
      simp [firstMin, hfm, hlt]

/-- C4: for every non-empty (cloud-cover-filtered) candidate list, the
scene selector — `sorted(items, key=cloud_cover)[0]`, a stable ascending
sort — returns a candidate of the list whose cloud cover is ≤ every other
candidate's, and among the minima it is the first in catalog return order
(every candidate strictly before it has strictly larger cloud cover). -/
theorem C4_scene_selector (l : List Candidate) (hne : l ≠ [])
    (hfilt : ∀ x ∈ l, x.cc < CLOUD_COVER_LIMIT) :
    ∃ c, selectScene l = some c ∧ c ∈ l ∧ (∀ x ∈ l, c.cc ≤ x.cc) ∧
      ∃ l₁ l₂, l = l₁ ++ c :: l₂ ∧ ∀ b ∈ l₁, c.cc < b.cc := by
  obtain ⟨c, hc⟩ := firstMin_isSome hne
  refine ⟨c, ?_, firstMin_mem hc, firstMin_le hc, firstMin_first hc⟩
  rw [selectScene, head?_mergeSort_leCC, hc]

/-- Witness for C4 on the two-candidate list with cloud covers 4 and 3
(both under the limit 5): a selected scene with all the stated properties
exists. -/
theorem C4_scene_selector_witness :
    ∃ c, selectScene [⟨4, []⟩, ⟨3, []⟩] = some c ∧
      c ∈ [(⟨4, []⟩ : Candidate), ⟨3, []⟩] ∧
      (∀ x ∈ [(⟨4, []⟩ : Candidate), ⟨3, []⟩], c.cc ≤ x.cc) ∧
      ∃ l₁ l₂, [(⟨4, []⟩ : Candidate), ⟨3, []⟩] = l₁ ++ c :: l₂ ∧
        ∀ b ∈ l₁, c.cc < b.cc :=
  C4_scene_selector [⟨4, []⟩, ⟨3, []⟩] (by decide) (by decide)

end S2Chips
